import Mathlib

/-
Shallow embedding of the game orchestration core of snake_evolution.py:
the session state record, the snake board tick, scoring on answers, the
session reset, question generation for math, and the keyboard dispatch.
Randomness is made explicit: every random draw of the Python code becomes
an argument (a list of candidate food cells, operand values, an offset
list for distractors, a shuffle function), and code that can raise or
loop forever on exhausted draws returns an Option.
-/

def WINDOW_WIDTH : Int := 800

def WINDOW_HEIGHT : Int := 600

def GRID_SIZE : Int := 20

def GRID_WIDTH : Int := WINDOW_WIDTH / GRID_SIZE

def GRID_HEIGHT : Int := WINDOW_HEIGHT / GRID_SIZE

inductive Direction where
  | UP
  | DOWN
  | LEFT
  | RIGHT
deriving DecidableEq, Repr

def Direction.value : Direction → Int × Int
  | Direction.UP => (0, -1)
  | Direction.DOWN => (0, 1)
  | Direction.LEFT => (-1, 0)
  | Direction.RIGHT => (1, 0)

def Direction.opposite : Direction → Direction
  | Direction.UP => Direction.DOWN
  | Direction.DOWN => Direction.UP
  | Direction.LEFT => Direction.RIGHT
  | Direction.RIGHT => Direction.LEFT

inductive GameState where
  | MENU
  | PLAYING
  | CATEGORY_SELECT
  | EDUCATION_GAME_SELECT
  | EDUCATION_GAME_PLAYING
  | PYTHON_GAME_SELECT
  | PYTHON_GAME_PLAYING
  | GAME_OVER
  | PAUSED
deriving DecidableEq, Repr

structure Question where
  question : String
  answer : Int
  options : List Int
  difficulty : Int
  subject : String
deriving DecidableEq, Repr

abbrev Cell := Int × Int

/-
The session fields of SnakeGame.__init__ that the core mutates. The
purely visual fields (fonts, screen, translations) and the private state
of the ten mini games are outside the model; on the modelled fields the
mini game handlers only perform the escape transition.
-/
structure SnakeGame where
  state : GameState
  language : String
  selected_category : Option String
  current_education_game : Option String
  current_python_game : Option String
  snake : List Cell
  direction : Direction
  next_direction : Direction
  food_pos : Option Cell
  current_question : Option Question
  question_answered : Bool
  score : Int
  level : Int
  questions_correct : Int
  questions_total : Int
  streak : Int
  best_streak : Int
  last_move_time : Int
  move_delay : Int
deriving DecidableEq, Repr

/-
Field defaults of SnakeGame.__init__ before the trailing generate_food
call; food_pos starts as None exactly as in the source.
-/
def init_fields : SnakeGame :=
  { state := GameState.MENU
    language := "english"
    selected_category := none
    current_education_game := none
    current_python_game := none
    snake := [(GRID_WIDTH / 2, GRID_HEIGHT / 2)]
    direction := Direction.RIGHT
    next_direction := Direction.RIGHT
    food_pos := none
    current_question := none
    question_answered := false
    score := 0
    level := 1
    questions_correct := 0
    questions_total := 0
    streak := 0
    best_streak := 0
    last_move_time := 0
    move_delay := 200 }

/-
generate_food draws random cells until one misses the snake; the draw
sequence is explicit and exhausting it yields none.
-/
def generate_food (draws : List Cell) (g : SnakeGame) : Option SnakeGame :=
  match draws with
  | [] => none
  | d :: rest =>
      if d ∉ g.snake then some { g with food_pos := some d }
      else generate_food rest g

def start_game (draws : List Cell) (g : SnakeGame) : Option SnakeGame :=
  let g1 := { g with
    state := GameState.PLAYING
    snake := [(GRID_WIDTH / 2, GRID_HEIGHT / 2)]
    direction := Direction.RIGHT
    next_direction := Direction.RIGHT
    score := 0
    level := 1
    questions_correct := 0
    questions_total := 0
    streak := 0
    selected_category := none
    current_education_game := none
    current_python_game := none }
  generate_food draws g1

def restart_game (draws : List Cell) (g : SnakeGame) : Option SnakeGame :=
  start_game draws g

def grow_snake (g : SnakeGame) : Option SnakeGame :=
  match g.snake.getLast? with
  | none => none
  | some tail => some { g with snake := g.snake ++ [tail] }

def game_over (g : SnakeGame) : SnakeGame :=
  { g with state := GameState.GAME_OVER }

def update_snake (current_time : Int) (g : SnakeGame) : Option SnakeGame :=
  if current_time - g.last_move_time < g.move_delay then some g
  else
    match g.snake with
    | [] => none
    | (head_x, head_y) :: _ =>
        let g1 := { g with
          last_move_time := current_time
          direction := g.next_direction }
        let d := g1.direction.value
        let new_head : Cell := (head_x + d.1, head_y + d.2)
        if new_head.1 < 0 ∨ GRID_WIDTH ≤ new_head.1 ∨
           new_head.2 < 0 ∨ GRID_HEIGHT ≤ new_head.2 then
          some (game_over g1)
        else if new_head ∈ g1.snake then
          some (game_over g1)
        else
          let g2 := { g1 with snake := new_head :: g1.snake }
          if g2.food_pos = some new_head then
            some { g2 with state := GameState.CATEGORY_SELECT }
          else
            some { g2 with snake := g2.snake.dropLast }

/-
Python list indexing: non-negative indices read from the front, indices
in [-len, -1] wrap from the back, anything below -len raises IndexError.
-/
def pyIndex (l : List Int) (i : Int) : Option Int :=
  if 0 ≤ i then l.get? i.toNat
  else if 0 ≤ (l.length : Int) + i then l.get? ((l.length : Int) + i).toNat
  else none

def answer_question (foodDraws : List Cell) (g : SnakeGame)
    (option_index : Int) : Option SnakeGame :=
  match g.current_question with
  | none => some g
  | some q =>
      if (q.options.length : Int) ≤ option_index then some g
      else
        match pyIndex q.options option_index with
        | none => none
        | some selected_answer =>
            let g1 := { g with questions_total := g.questions_total + 1 }
            if selected_answer = q.answer then
              let newStreak : Int := g1.streak + 1
              let g2 := { g1 with
                questions_correct := g1.questions_correct + 1
                streak := newStreak
                best_streak := max g1.best_streak newStreak
                score := g1.score + 10 + min (newStreak * 2) 20 }
              match grow_snake g2 with
              | none => none
              | some g3 =>
                  match generate_food foodDraws g3 with
                  | none => none
                  | some g4 =>
                      let g5 := { g4 with
                        question_answered := true
                        state := GameState.PLAYING }
                      let g6 :=
                        if g5.questions_correct % 5 = (0 : Int) then
                          { g5 with
                            level := g5.level + 1
                            move_delay := max 100 (g5.move_delay - 10) }
                        else g5
                      some { g6 with current_question := none }
            else
              some { g1 with streak := 0, current_question := none }

inductive Key where
  | space
  | kl
  | up
  | down
  | left
  | right
  | kp
  | k1
  | k2
  | k3
  | k4
  | k5
  | kb
  | kr
  | kq
  | escape
  | other
deriving DecidableEq, Repr

def arrow_dir : Key → Option Direction
  | Key.up => some Direction.UP
  | Key.down => some Direction.DOWN
  | Key.left => some Direction.LEFT
  | Key.right => some Direction.RIGHT
  | _ => none

/-
handle_input for one KEYDOWN event. The Bool is the running flag; it is
false only for the quit key on the game over screen. The two mini game
playing states dispatch to handlers whose mutations live outside the
modelled fields except for the escape transition.
-/
def handle_keydown (foodDraws : List Cell) (g : SnakeGame) (key : Key) :
    Option (SnakeGame × Bool) :=
  match g.state with
  | GameState.MENU =>
      match key with
      | Key.space => (start_game foodDraws g).map (fun g2 => (g2, true))
      | Key.kl =>
          some ({ g with language :=
            if g.language = "english" then "tamil" else "english" }, true)
      | _ => some (g, true)
  | GameState.PLAYING =>
      match key with
      | Key.up =>
          if g.direction ≠ Direction.DOWN then
            some ({ g with next_direction := Direction.UP }, true)
          else some (g, true)
      | Key.down =>
          if g.direction ≠ Direction.UP then
            some ({ g with next_direction := Direction.DOWN }, true)
          else some (g, true)
      | Key.left =>
          if g.direction ≠ Direction.RIGHT then
            some ({ g with next_direction := Direction.LEFT }, true)
          else some (g, true)
      | Key.right =>
          if g.direction ≠ Direction.LEFT then
            some ({ g with next_direction := Direction.RIGHT }, true)
          else some (g, true)
      | Key.kp => some ({ g with state := GameState.PAUSED }, true)
      | _ => some (g, true)
  | GameState.CATEGORY_SELECT =>
      match key with
      | Key.k1 =>
          some ({ g with
            selected_category := some "education"
            state := GameState.EDUCATION_GAME_SELECT }, true)
      | Key.k2 =>
          some ({ g with
            selected_category := some "python"
            state := GameState.PYTHON_GAME_SELECT }, true)
      | _ => some (g, true)
  | GameState.EDUCATION_GAME_SELECT =>
      match key with
      | Key.k1 =>
          some ({ g with
            current_education_game := some "math_wizard"
            state := GameState.EDUCATION_GAME_PLAYING }, true)
      | Key.k2 =>
          some ({ g with
            current_education_game := some "science_lab"
            state := GameState.EDUCATION_GAME_PLAYING }, true)
      | Key.k3 =>
          some ({ g with
            current_education_game := some "geography_quest"
            state := GameState.EDUCATION_GAME_PLAYING }, true)
      | Key.k4 =>
          some ({ g with
            current_education_game := some "history_hunter"
            state := GameState.EDUCATION_GAME_PLAYING }, true)
      | Key.k5 =>
          some ({ g with
            current_education_game := some "word_master"
            state := GameState.EDUCATION_GAME_PLAYING }, true)
      | Key.kb => some ({ g with state := GameState.CATEGORY_SELECT }, true)
      | _ => some (g, true)
  | GameState.PYTHON_GAME_SELECT =>
      match key with
      | Key.k1 =>
          some ({ g with
            current_python_game := some "tic_tac_toe"
            state := GameState.PYTHON_GAME_PLAYING }, true)
      | Key.k2 =>
          some ({ g with
            current_python_game := some "space_shooter"
            state := GameState.PYTHON_GAME_PLAYING }, true)
      | Key.k3 =>
          some ({ g with
            current_python_game := some "car_racing"
            state := GameState.PYTHON_GAME_PLAYING }, true)
      | Key.k4 =>
          some ({ g with
            current_python_game := some "zombie_dash"
            state := GameState.PYTHON_GAME_PLAYING }, true)
      | Key.k5 =>
          some ({ g with
            current_python_game := some "ball_run"
            state := GameState.PYTHON_GAME_PLAYING }, true)
      | Key.kb => some ({ g with state := GameState.CATEGORY_SELECT }, true)
      | _ => some (g, true)
  | GameState.EDUCATION_GAME_PLAYING =>
      if key = Key.escape then
        some ({ g with state := GameState.EDUCATION_GAME_SELECT }, true)
      else some (g, true)
  | GameState.PYTHON_GAME_PLAYING =>
      if key = Key.escape then
        some ({ g with state := GameState.PYTHON_GAME_SELECT }, true)
      else some (g, true)
  | GameState.PAUSED =>
      if key = Key.kp then some ({ g with state := GameState.PLAYING }, true)
      else some (g, true)
  | GameState.GAME_OVER =>
      match key with
      | Key.kr => (restart_game foodDraws g).map (fun g2 => (g2, true))
      | Key.kq => some (g, false)
      | _ => some (g, true)

/-
The dispatch of the run loop: update_snake runs only while the mode is
PLAYING; every other mode only draws.
-/
def tick_dispatch (current_time : Int) (g : SnakeGame) : Option SnakeGame :=
  if g.state = GameState.PLAYING then update_snake current_time g
  else some g

/-
generate_math_question, split into the question and answer choice and the
distractor loop. Operand draws a and b, the operation coin, the perfect
square pick and the offset draws of the while loop are explicit. The
square root branch computes int(s ** 0.5); on the drawn perfect squares
this equals the exact natural square root.
-/
def math_core (difficulty : Int) (a b : Int) (opChoice : Bool) (sq : Int) :
    String × Int :=
  if difficulty ≤ 3 then
    if opChoice then (toString a ++ " + " ++ toString b ++ " = ?", a + b)
    else
      if a < b then (toString b ++ " - " ++ toString a ++ " = ?", b - a)
      else (toString a ++ " - " ++ toString b ++ " = ?", a - b)
  else if difficulty ≤ 6 then
    if opChoice then (toString a ++ " × " ++ toString b ++ " = ?", a * b)
    else (toString (a * b) ++ " ÷ " ++ toString b ++ " = ?", a)
  else
    if opChoice then (toString a ++ "² = ?", a * a)
    else ("√" ++ toString sq ++ " = ?", Int.ofNat (Nat.sqrt sq.toNat))

/-
The while loop collecting distractors: a drawn offset o yields the
candidate answer + o, kept when it differs from the answer, is not yet
present and is non-negative; the loop stops at four options. Exhausting
the offset draws yields none.
-/
def build_options (answer : Int) : List Int → List Int → Option (List Int)
  | [], options => if 4 ≤ options.length then some options else none
  | o :: rest, options =>
      if 4 ≤ options.length then some options
      else
        let wrong := answer + o
        if wrong ≠ answer ∧ wrong ∉ options ∧ 0 ≤ wrong then
          build_options answer rest (options ++ [wrong])
        else build_options answer rest options

def generate_math_question (difficulty : Int) (a b : Int) (opChoice : Bool)
    (sq : Int) (offsets : List Int) (shuffle : List Int → List Int) :
    Option Question :=
  let qa := math_core difficulty a b opChoice sq
  match build_options qa.2 offsets [qa.2] with
  | none => none
  | some options =>
      some { question := qa.1
             answer := qa.2
             options := shuffle options
             difficulty := difficulty
             subject := "math" }

def in_bounds (c : Cell) : Prop :=
  0 ≤ c.1 ∧ c.1 < GRID_WIDTH ∧ 0 ≤ c.2 ∧ c.2 < GRID_HEIGHT

instance (c : Cell) : Decidable (in_bounds c) := by
  unfold in_bounds
  infer_instance

/- Concrete states used by the scenario theorems below. -/

def qD : Question :=
  { question := "1 + 1 = ?"
    answer := 2
    options := [2, 3, 4, 5]
    difficulty := 1
    subject := "math" }

def gPlay : SnakeGame :=
  { init_fields with state := GameState.PLAYING, food_pos := some (10, 10) }

def gQ : SnakeGame := { gPlay with current_question := some qD }

def stepD (g : SnakeGame) : Option SnakeGame :=
  answer_question [(0, 0)] { g with current_question := some qD } 0

def runD : Option SnakeGame :=
  ((((stepD gPlay).bind stepD).bind stepD).bind stepD).bind stepD

def gD5 : SnakeGame := runD.getD init_fields

def gQres : SnakeGame := (answer_question [(0, 0)] gQ 0).getD init_fields

def gWres : SnakeGame := (answer_question [] gQ 1).getD init_fields

def gNegres : SnakeGame := (answer_question [] gQ (-1)).getD init_fields

def gPrior : SnakeGame :=
  { init_fields with
    state := GameState.GAME_OVER
    move_delay := 150
    best_streak := 7
    score := 42
    level := 3
    streak := 4
    snake := [(3, 3), (4, 3)] }

def gReset : SnakeGame := (restart_game [(0, 0)] gPrior).getD init_fields

def gWall : SnakeGame :=
  { gPlay with
    snake := [(0, 10), (1, 10)]
    direction := Direction.LEFT
    next_direction := Direction.LEFT }

def gWallRes : SnakeGame := (update_snake 300 gWall).getD init_fields

def gEat : SnakeGame :=
  { gPlay with snake := [(10, 10)], food_pos := some (11, 10) }

def gEatRes : SnakeGame := (update_snake 250 gEat).getD init_fields

def gSnake2 : SnakeGame :=
  { gPlay with snake := [(5, 5), (4, 5)], last_move_time := 1000 }

def gGrown : SnakeGame := (grow_snake gSnake2).getD init_fields

def gMove : SnakeGame :=
  { gPlay with snake := [(10, 10)], food_pos := some (5, 5) }

def gMoveRes : SnakeGame := (update_snake 250 gMove).getD init_fields

def qGen : Question :=
  (generate_math_question 2 3 4 true 4 [1, 2, 3] id).getD qD

example : gQres.score = 12 := by decide
example : gD5.score = 80 := by decide
example : gD5.move_delay = 190 := by decide
example : gD5.level = 2 := by decide
example : gD5.streak = 5 := by decide
example : gWres.streak = 0 ∧ gWres.score = 0 ∧ gWres.questions_total = 1 ∧
    gWres.current_question = none := by decide
example : gNegres.questions_total = 1 := by decide
example : answer_question [] gQ 7 = some gQ := by decide
example : answer_question [] gQ (-9) = none := by decide

/- Helper lemmas about the effect of each operation on the session. -/

theorem generate_food_some {draws : List Cell} {g g2 : SnakeGame}
    (h : generate_food draws g = some g2) :
    ∃ c, c ∉ g.snake ∧ g2 = { g with food_pos := some c } := by
  induction draws with
  | nil => simp [generate_food] at h
  | cons d rest ih =>
      rw [generate_food] at h
      by_cases hd : d ∉ g.snake
      · rw [if_pos hd] at h
        exact ⟨d, hd, (Option.some.inj h).symm⟩
      · rw [if_neg hd] at h
        exact ih h

theorem grow_snake_some {g g2 : SnakeGame} (h : grow_snake g = some g2) :
    ∃ tl, g.snake.getLast? = some tl ∧
      g2 = { g with snake := g.snake ++ [tl] } := by
  rw [grow_snake] at h
  cases hl : g.snake.getLast? with
  | none => rw [hl] at h; exact absurd h (by simp)
  | some tl =>
      rw [hl] at h
      exact ⟨tl, rfl, (Option.some.inj h).symm⟩

theorem answer_correct_effect {fd : List Cell} {g g2 : SnakeGame}
    {q : Question} {i : Int}
    (hq : g.current_question = some q)
    (hlt : ¬ ((q.options.length : Int) ≤ i))
    (hsel : pyIndex q.options i = some q.answer)
    (h : answer_question fd g i = some g2) :
    g2.score = g.score + 10 + min ((g.streak + 1) * 2) 20 ∧
    g2.streak = g.streak + 1 ∧
    g2.questions_correct = g.questions_correct + 1 ∧
    g2.questions_total = g.questions_total + 1 := by
  simp only [answer_question, hq, if_neg hlt, hsel, if_true] at h
  split at h
  · exact absurd h (by simp)
  · next g3 heq =>
      split at h
      · exact absurd h (by simp)
      · next g4 heq2 =>
          obtain ⟨tl, _, rfl⟩ := grow_snake_some heq
          obtain ⟨c, _, rfl⟩ := generate_food_some heq2
          split at h <;>
            simpa using congrArg
              (fun s => (s.score, s.streak, s.questions_correct,
                s.questions_total)) (Option.some.inj h).symm

/-- Claim C1, counterexample: at streak 0 a correct answer adds 12 points,
not the 10 + min(0 * 2, 20) = 10 the claim states, because the code
increments the streak before computing the bonus; five consecutive correct
answers from score 0 and moveDelay 200 end at score 80, not 70. -/
theorem C1_counterexample :
    gQ.streak = 0 ∧ gQ.score = 0 ∧
    answer_question [(0, 0)] gQ 0 = some gQres ∧
    gQres.score = 12 ∧ (12 : Int) ≠ 10 + min (0 * 2) 20 ∧
    runD = some gD5 ∧ gD5.score = 80 ∧ (80 : Int) ≠ 70 := by decide

/-- Claim C1, amended: with streak equal to s prior consecutive correct
answers, a correct answer adds exactly 10 + min((s + 1) * 2, 20) to the
score; five consecutive correct answers starting from streak 0, score 0,
moveDelay 200 yield final score 80, moveDelay 190, and exactly one level
increment. -/
theorem C1_scoring_law (fd : List Cell) (g g2 : SnakeGame) (q : Question)
    (i : Int)
    (hq : g.current_question = some q)
    (hlt : ¬ ((q.options.length : Int) ≤ i))
    (hsel : pyIndex q.options i = some q.answer)
    (h : answer_question fd g i = some g2) :
    g2.score = g.score + 10 + min ((g.streak + 1) * 2) 20 ∧
    (runD = some gD5 ∧ gD5.score = 80 ∧ gD5.move_delay = 190 ∧
      gD5.level = 2 ∧ init_fields.level = 1) :=
  ⟨(answer_correct_effect hq hlt hsel h).1,
    by decide, by decide, by decide, by decide, by decide⟩

theorem C1_scoring_law_witness :
    answer_question [(0, 0)] gQ 0 = some gQres ∧
    gQres.score = gQ.score + 10 + min ((gQ.streak + 1) * 2) 20 :=
  ⟨by decide,
    (C1_scoring_law [(0, 0)] gQ gQres qD 0 (by decide) (by decide)
      (by decide) (by decide)).1⟩

/-- Claim C2: submitting an incorrect answer sets streak to 0, leaves the
score unchanged and increments totalAttempted; however the code then sets
current_question to None even though its own comment says the player may
retry the question, so the same Question does not stay current. The
theorem evaluates answer_question at the failing input: question with
answer 2 and options [2, 3, 4, 5], selected option index 1. -/
theorem C2_wrong_answer_eval :
    gQ.current_question = some qD ∧
    answer_question [] gQ 1 = some gWres ∧
    gWres.streak = 0 ∧ gWres.score = gQ.score ∧
    gWres.questions_total = gQ.questions_total + 1 ∧
    gWres.current_question = none := by decide

/-- Claim C3, counterexample: restarting from a game over state with
moveDelay 150 and best streak 7 keeps those values instead of restoring
the process start defaults 200 and 0. -/
theorem C3_counterexample :
    restart_game [(0, 0)] gPrior = some gReset ∧
    gReset.move_delay = 150 ∧ init_fields.move_delay = 200 ∧
    gReset.best_streak = 7 ∧ init_fields.best_streak = 0 := by decide

/-- Claim C3, amended: a start intent from MENU or a restart intent from
GAME_OVER resets snake to a single cell at grid center heading RIGHT,
score 0, level 1, streak 0, counts 0, clears the category and sub game
selections and spawns fresh food off the snake, but move delay, best
streak and the last move timestamp keep their prior values; restart is
literally the same reset as start, so start followed by restart yields
identical values of the reset fields. -/
theorem C3_reset (draws : List Cell) (g g2 : SnakeGame)
    (h : start_game draws g = some g2) :
    g2.state = GameState.PLAYING ∧
    g2.snake = [(GRID_WIDTH / 2, GRID_HEIGHT / 2)] ∧
    g2.direction = Direction.RIGHT ∧
    g2.next_direction = Direction.RIGHT ∧
    g2.score = 0 ∧ g2.level = 1 ∧
    g2.questions_correct = 0 ∧ g2.questions_total = 0 ∧ g2.streak = 0 ∧
    g2.selected_category = none ∧
    g2.current_education_game = none ∧ g2.current_python_game = none ∧
    (∃ c, c ∉ g2.snake ∧ g2.food_pos = some c) ∧
    g2.move_delay = g.move_delay ∧ g2.best_streak = g.best_streak ∧
    g2.last_move_time = g.last_move_time ∧
    restart_game draws g = start_game draws g := by
  simp only [start_game] at h
  obtain ⟨c, hc, rfl⟩ := generate_food_some h
  refine ⟨rfl, rfl, rfl, rfl, rfl, rfl, rfl, rfl, rfl, rfl, rfl, rfl,
    ⟨c, ?_, rfl⟩, rfl, rfl, rfl, rfl⟩
  simpa using hc

theorem C3_reset_witness :
    start_game [(0, 0)] gPrior = some gReset ∧
    gReset.state = GameState.PLAYING :=
  ⟨by decide, (C3_reset [(0, 0)] gPrior gReset (by decide)).1⟩

/- Unfolded form of one unthrottled board tick on a nonempty snake. -/

theorem update_snake_cons (t : Int) (g : SnakeGame) (hx hy : Int)
    (rest : List Cell)
    (hs : g.snake = (hx, hy) :: rest)
    (hthr : g.move_delay ≤ t - g.last_move_time) :
    update_snake t g =
      (if hx + (g.next_direction.value).1 < 0 ∨
          GRID_WIDTH ≤ hx + (g.next_direction.value).1 ∨
          hy + (g.next_direction.value).2 < 0 ∨
          GRID_HEIGHT ≤ hy + (g.next_direction.value).2 then
         some (game_over
           { g with last_move_time := t, direction := g.next_direction })
       else if ((hx + (g.next_direction.value).1,
                 hy + (g.next_direction.value).2) : Cell) ∈ g.snake then
         some (game_over
           { g with last_move_time := t, direction := g.next_direction })
       else if g.food_pos = some (hx + (g.next_direction.value).1,
                                  hy + (g.next_direction.value).2) then
         some { g with
           last_move_time := t
           direction := g.next_direction
           snake := (hx + (g.next_direction.value).1,
                     hy + (g.next_direction.value).2) :: g.snake
           state := GameState.CATEGORY_SELECT }
       else
         some { g with
           last_move_time := t
           direction := g.next_direction
           snake := ((hx + (g.next_direction.value).1,
                      hy + (g.next_direction.value).2) :: g.snake).dropLast }) := by
  rw [update_snake,
    if_neg (by omega : ¬ (t - g.last_move_time < g.move_delay)), hs]

/-- Claim C4: on a moving tick in PLAYING whose new head is out of bounds
on either axis or hits an existing body cell, the mode becomes GAME_OVER
and the snake cell list, food cell, score, level and streak are all
unchanged. -/
theorem C4_collision_frame (t : Int) (g g2 : SnakeGame) (hx hy : Int)
    (rest : List Cell)
    (_hst : g.state = GameState.PLAYING)
    (hs : g.snake = (hx, hy) :: rest)
    (hthr : g.move_delay ≤ t - g.last_move_time)
    (hcol : (hx + (g.next_direction.value).1 < 0 ∨
             GRID_WIDTH ≤ hx + (g.next_direction.value).1 ∨
             hy + (g.next_direction.value).2 < 0 ∨
             GRID_HEIGHT ≤ hy + (g.next_direction.value).2) ∨
            ((hx + (g.next_direction.value).1,
              hy + (g.next_direction.value).2) : Cell) ∈ g.snake)
    (hup : update_snake t g = some g2) :
    g2.state = GameState.GAME_OVER ∧ g2.snake = g.snake ∧
    g2.food_pos = g.food_pos ∧ g2.score = g.score ∧
    g2.level = g.level ∧ g2.streak = g.streak := by
  rw [update_snake_cons t g hx hy rest hs hthr] at hup
  by_cases hw : (hx + (g.next_direction.value).1 < 0 ∨
      GRID_WIDTH ≤ hx + (g.next_direction.value).1 ∨
      hy + (g.next_direction.value).2 < 0 ∨
      GRID_HEIGHT ≤ hy + (g.next_direction.value).2)
  · rw [if_pos hw] at hup
    injection hup with hup
    subst hup
    simp [game_over]
  · rw [if_neg hw, if_pos (hcol.resolve_left hw)] at hup
    injection hup with hup
    subst hup
    simp [game_over]

theorem C4_collision_frame_witness :
    update_snake 300 gWall = some gWallRes ∧
    gWallRes.state = GameState.GAME_OVER ∧ gWallRes.snake = gWall.snake :=
  ⟨by decide,
    (C4_collision_frame 300 gWall gWallRes 0 10 [(1, 10)] (by decide)
      (by decide) (by decide) (by decide) (by decide)).1,
    (C4_collision_frame 300 gWall gWallRes 0 10 [(1, 10)] (by decide)
      (by decide) (by decide) (by decide) (by decide)).2.1⟩

/-- Claim C5: on a non-collision moving tick the new head is prepended;
if it equals the food cell the tail is kept (length grows by one) and the
mode becomes CATEGORY_SELECT with the food unchanged; otherwise the tail
is removed, the length, mode and food are unchanged. -/
theorem C5_move_or_eat (t : Int) (g g2 : SnakeGame) (hx hy : Int)
    (rest : List Cell)
    (_hst : g.state = GameState.PLAYING)
    (hs : g.snake = (hx, hy) :: rest)
    (hthr : g.move_delay ≤ t - g.last_move_time)
    (hb : in_bounds (hx + (g.next_direction.value).1,
                     hy + (g.next_direction.value).2))
    (hmem : ((hx + (g.next_direction.value).1,
              hy + (g.next_direction.value).2) : Cell) ∉ g.snake)
    (hup : update_snake t g = some g2) :
    (g.food_pos = some (hx + (g.next_direction.value).1,
                        hy + (g.next_direction.value).2) →
       g2.snake = (hx + (g.next_direction.value).1,
                   hy + (g.next_direction.value).2) :: g.snake ∧
       g2.snake.length = g.snake.length + 1 ∧
       g2.state = GameState.CATEGORY_SELECT ∧
       g2.food_pos = g.food_pos) ∧
    (g.food_pos ≠ some (hx + (g.next_direction.value).1,
                        hy + (g.next_direction.value).2) →
       g2.snake = ((hx + (g.next_direction.value).1,
                    hy + (g.next_direction.value).2) :: g.snake).dropLast ∧
       g2.snake.length = g.snake.length ∧
       g2.state = g.state ∧
       g2.food_pos = g.food_pos) := by
  rw [update_snake_cons t g hx hy rest hs hthr] at hup
  obtain ⟨hb1, hb2, hb3, hb4⟩ := hb
  rw [if_neg (by simp only [] at hb1 hb2 hb3 hb4; omega), if_neg hmem] at hup
  by_cases hf : g.food_pos = some (hx + (g.next_direction.value).1,
      hy + (g.next_direction.value).2)
  · rw [if_pos hf] at hup
    injection hup with hup
    subst hup
    refine ⟨fun _ => ⟨rfl, by simp, rfl, rfl⟩, fun hnf => absurd hf hnf⟩
  · rw [if_neg hf] at hup
    injection hup with hup
    subst hup
    refine ⟨fun hf2 => absurd hf2 hf, fun _ => ⟨rfl, ?_, rfl, rfl⟩⟩
    simp [hs]

theorem C5_move_or_eat_witness :
    update_snake 250 gEat = some gEatRes ∧
    gEatRes.state = GameState.CATEGORY_SELECT ∧
    gEatRes.snake.length = gEat.snake.length + 1 :=
  ⟨by decide,
    ((C5_move_or_eat 250 gEat gEatRes 10 10 [] (by decide) (by decide)
      (by decide) (by decide) (by decide) (by decide)).1 (by decide)).2.2.1,
    ((C5_move_or_eat 250 gEat gEatRes 10 10 [] (by decide) (by decide)
      (by decide) (by decide) (by decide) (by decide)).1 (by decide)).2.1⟩

/-- Claim C7, counterexample: growth duplicates the tail cell, and a
throttled tick leaves the snake unchanged, so after that tick two snake
cells are equal, refuting the claim for throttled (and likewise
collision) ticks. -/
theorem C7_counterexample :
    grow_snake gSnake2 = some gGrown ∧
    update_snake 1100 gGrown = some gGrown ∧
    ¬ gGrown.snake.Nodup := by decide

/-- Claim C7, amended: from a state whose snake cells all lie within grid
bounds and are pairwise distinct except possibly for a duplicated tail, a
throttled tick leaves the state unchanged (so bounds persist but a
duplicated tail survives), and an unthrottled non-collision tick yields a
snake whose cells all lie within bounds, which is pairwise distinct when
no food was eaten, and also pairwise distinct on a food tick provided the
pre-state had no duplicated tail. -/
theorem C7_tick_invariant (t : Int) (g : SnakeGame) (hx hy : Int)
    (rest : List Cell)
    (hs : g.snake = (hx, hy) :: rest)
    (hbd : ∀ c ∈ g.snake, in_bounds c)
    (hdl : g.snake.dropLast.Nodup) :
    (t - g.last_move_time < g.move_delay → update_snake t g = some g) ∧
    (g.move_delay ≤ t - g.last_move_time →
      in_bounds (hx + (g.next_direction.value).1,
                 hy + (g.next_direction.value).2) →
      ((hx + (g.next_direction.value).1,
        hy + (g.next_direction.value).2) : Cell) ∉ g.snake →
      ∀ g2, update_snake t g = some g2 →
        (∀ c ∈ g2.snake, in_bounds c) ∧
        (g.food_pos ≠ some (hx + (g.next_direction.value).1,
                            hy + (g.next_direction.value).2) →
          g2.snake.Nodup) ∧
        (g.food_pos = some (hx + (g.next_direction.value).1,
                            hy + (g.next_direction.value).2) →
          g.snake.Nodup → g2.snake.Nodup)) := by
  constructor
  · intro hlt
    rw [update_snake, if_pos hlt]
  · intro hthr hb hmem g2 hup
    rw [update_snake_cons t g hx hy rest hs hthr] at hup
    obtain ⟨hb1, hb2, hb3, hb4⟩ := hb
    rw [if_neg (by simp only [] at hb1 hb2 hb3 hb4; omega),
      if_neg hmem] at hup
    by_cases hf : g.food_pos = some (hx + (g.next_direction.value).1,
        hy + (g.next_direction.value).2)
    · rw [if_pos hf] at hup
      injection hup with hup
      subst hup
      refine ⟨?_, fun hnf => absurd hf hnf, fun _ hnodup => ?_⟩
      · intro c hc
        simp only [List.mem_cons] at hc
        rcases hc with rfl | hc
        · exact ⟨hb1, hb2, hb3, hb4⟩
        · exact hbd c hc
      · exact List.nodup_cons.2 ⟨hmem, hnodup⟩
    · rw [if_neg hf] at hup
      injection hup with hup
      subst hup
      refine ⟨?_, fun _ => ?_, fun hf2 _ => absurd hf2 hf⟩
      · intro c hc
        simp only [] at hc
        have hsub : c ∈ ((hx + (g.next_direction.value).1,
            hy + (g.next_direction.value).2) : Cell) :: g.snake :=
          List.dropLast_subset _ hc
        simp only [List.mem_cons] at hsub
        rcases hsub with rfl | hsub
        · exact ⟨hb1, hb2, hb3, hb4⟩
        · exact hbd c hsub
      · rw [List.dropLast_cons_of_ne_nil (by simp [hs])]
        refine List.nodup_cons.2 ⟨?_, hdl⟩
        intro hmem2
        exact hmem (List.dropLast_subset _ hmem2)

theorem C7_tick_invariant_witness :
    update_snake 250 gMove = some gMoveRes ∧ gMoveRes.snake.Nodup :=
  ⟨by decide,
    (((C7_tick_invariant 250 gMove 10 10 [] (by decide) (by decide)
      (by decide)).2 (by decide) (by decide) (by decide) gMoveRes
      (by decide)).2.1) (by decide)⟩

/-- Claim C8, counterexample: the guard in answer_question only rejects
indices at or above the option count, so the out-of-range index -1 is not
ignored: Python list indexing selects the last option and the answer is
processed, changing the session (totalAttempted increments). -/
theorem C8_counterexample :
    gQ.current_question = some qD ∧
    qD.options.length = 4 ∧
    answer_question [] gQ (-1) = some gNegres ∧
    gNegres.questions_total = gQ.questions_total + 1 ∧
    gNegres ≠ gQ := by decide

/-- Claim C8, amended: an answer with no current question, or with a
non-negative option index at or beyond the four options, is silently
ignored with the session unchanged, and movement intents in the menu
style states are silently ignored as well; but a negative index in
[-4, -1] is interpreted from the end of the option list and processed as
a normal answer, and an index below -4 raises an IndexError. -/
theorem C8_invalid_intents :
    (∀ (fd : List Cell) (g : SnakeGame) (i : Int),
      g.current_question = none → answer_question fd g i = some g) ∧
    (∀ (fd : List Cell) (g : SnakeGame) (q : Question) (i : Int),
      g.current_question = some q → (q.options.length : Int) ≤ i →
      answer_question fd g i = some g) ∧
    (∀ (fd : List Cell) (g : SnakeGame) (q : Question) (i : Int),
      g.current_question = some q → i < -(q.options.length : Int) →
      answer_question fd g i = none) ∧
    (∀ (fd : List Cell) (g : SnakeGame) (k : Key),
      (g.state = GameState.MENU ∨ g.state = GameState.CATEGORY_SELECT ∨
       g.state = GameState.EDUCATION_GAME_SELECT ∨
       g.state = GameState.PYTHON_GAME_SELECT ∨
       g.state = GameState.PAUSED ∨ g.state = GameState.GAME_OVER) →
      (k = Key.up ∨ k = Key.down ∨ k = Key.left ∨ k = Key.right) →
      handle_keydown fd g k = some (g, true)) := by
  refine ⟨?_, ?_, ?_, ?_⟩
  · intro fd g i hq
    simp [answer_question, hq]
  · intro fd g q i hq hle
    simp [answer_question, hq, if_pos hle]
  · intro fd g q i hq hneg
    have hlen : (0 : Int) ≤ (q.options.length : Int) := Int.natCast_nonneg _
    simp only [answer_question, hq, if_neg (by omega : ¬ ((q.options.length : Int) ≤ i))]
    rw [pyIndex, if_neg (by omega : ¬ ((0 : Int) ≤ i)),
      if_neg (by omega : ¬ ((0 : Int) ≤ (q.options.length : Int) + i))]
  · intro fd g k hst hk
    rcases hst with h | h | h | h | h | h <;>
      rcases hk with rfl | rfl | rfl | rfl <;>
      rw [handle_keydown.eq_def, h] <;> rfl

theorem C8_invalid_intents_witness :
    answer_question [] gPlay 7 = some gPlay ∧
    handle_keydown [] init_fields Key.up = some (init_fields, true) :=
  ⟨C8_invalid_intents.1 [] gPlay 7 rfl,
    C8_invalid_intents.2.2.2 [] init_fields Key.up (Or.inl rfl) (Or.inl rfl)⟩

/-- Claim C9: a pending direction that is the exact opposite of the
current heading is rejected by the input guard (the event leaves the
session unchanged), and as long as the pending direction is RIGHT a tick
leaves the heading RIGHT; in particular with heading RIGHT a LEFT press
is ignored and the heading is still RIGHT after the next tick. -/
theorem C9_reversal_guard :
    (∀ (fd : List Cell) (g : SnakeGame) (k : Key) (d : Direction),
      g.state = GameState.PLAYING → arrow_dir k = some d →
      d = g.direction.opposite →
      handle_keydown fd g k = some (g, true)) ∧
    (∀ (t : Int) (g g2 : SnakeGame),
      g.direction = Direction.RIGHT →
      g.next_direction = Direction.RIGHT →
      update_snake t g = some g2 → g2.direction = Direction.RIGHT) := by
  constructor
  · intro fd g k d hst hak hop
    cases k with
    | up =>
        obtain rfl : Direction.UP = d := by simpa [arrow_dir] using hak
        rw [handle_keydown.eq_def, hst]
        cases hd : g.direction <;> rw [hd] at hop <;>
          simp [Direction.opposite] at hop <;> simp [hd]
    | down =>
        obtain rfl : Direction.DOWN = d := by simpa [arrow_dir] using hak
        rw [handle_keydown.eq_def, hst]
        cases hd : g.direction <;> rw [hd] at hop <;>
          simp [Direction.opposite] at hop <;> simp [hd]
    | left =>
        obtain rfl : Direction.LEFT = d := by simpa [arrow_dir] using hak
        rw [handle_keydown.eq_def, hst]
        cases hd : g.direction <;> rw [hd] at hop <;>
          simp [Direction.opposite] at hop <;> simp [hd]
    | right =>
        obtain rfl : Direction.RIGHT = d := by simpa [arrow_dir] using hak
        rw [handle_keydown.eq_def, hst]
        cases hd : g.direction <;> rw [hd] at hop <;>
          simp [Direction.opposite] at hop <;> simp [hd]
    | space => exact absurd hak (by simp [arrow_dir])
    | kl => exact absurd hak (by simp [arrow_dir])
    | kp => exact absurd hak (by simp [arrow_dir])
    | k1 => exact absurd hak (by simp [arrow_dir])
    | k2 => exact absurd hak (by simp [arrow_dir])
    | k3 => exact absurd hak (by simp [arrow_dir])
    | k4 => exact absurd hak (by simp [arrow_dir])
    | k5 => exact absurd hak (by simp [arrow_dir])
    | kb => exact absurd hak (by simp [arrow_dir])
    | kr => exact absurd hak (by simp [arrow_dir])
    | kq => exact absurd hak (by simp [arrow_dir])
    | escape => exact absurd hak (by simp [arrow_dir])
    | other => exact absurd hak (by simp [arrow_dir])
  · intro t g g2 hdir hnext hup
    by_cases hthr : t - g.last_move_time < g.move_delay
    · rw [update_snake, if_pos hthr] at hup
      injection hup with hup
      subst hup
      exact hdir
    · cases hsn : g.snake with
      | nil =>
          rw [update_snake, if_neg hthr, hsn] at hup
          simp at hup
      | cons c restl =>
          obtain ⟨cx, cy⟩ := c
          rw [update_snake_cons t g cx cy restl hsn (by omega)] at hup
          split at hup
          · injection hup with hup
            subst hup
            simpa [game_over] using hnext
          · split at hup
            · injection hup with hup
              subst hup
              simpa [game_over] using hnext
            · split at hup
              · injection hup with hup
                subst hup
                simpa using hnext
              · injection hup with hup
                subst hup
                simpa using hnext

theorem C9_reversal_guard_witness :
    handle_keydown [] gEat Key.left = some (gEat, true) ∧
    update_snake 250 gEat = some gEatRes ∧
    gEatRes.direction = Direction.RIGHT :=
  ⟨C9_reversal_guard.1 [] gEat Key.left Direction.LEFT rfl rfl rfl,
    by decide,
    C9_reversal_guard.2 250 gEat gEatRes rfl rfl (by decide)⟩

/-- Claim C10: the pause intent in PLAYING mutates only the mode to
PAUSED, the run loop dispatch performs no snake update while PAUSED, and
the resume intent restores a state equal to the pre-pause state in every
field. -/
theorem C10_pause_resume (fd : List Cell) (g : SnakeGame)
    (h : g.state = GameState.PLAYING) :
    handle_keydown fd g Key.kp =
      some ({ g with state := GameState.PAUSED }, true) ∧
    (∀ t, tick_dispatch t { g with state := GameState.PAUSED } =
      some { g with state := GameState.PAUSED }) ∧
    handle_keydown fd { g with state := GameState.PAUSED } Key.kp =
      some (g, true) := by
  refine ⟨?_, ?_, ?_⟩
  · rw [handle_keydown.eq_def, h]
  · intro t
    rw [tick_dispatch,
      if_neg (show ¬ (({ g with state := GameState.PAUSED } :
        SnakeGame).state = GameState.PLAYING) by simp)]
  · have e : ({ g with state := GameState.PLAYING } : SnakeGame) = g := by
      rw [← h]
    calc handle_keydown fd { g with state := GameState.PAUSED } Key.kp
        = some ({ g with state := GameState.PLAYING }, true) := rfl
      _ = some (g, true) := by rw [e]

theorem C10_pause_resume_witness :
    handle_keydown [] gPlay Key.kp =
      some ({ gPlay with state := GameState.PAUSED }, true) ∧
    handle_keydown [] { gPlay with state := GameState.PAUSED } Key.kp =
      some (gPlay, true) :=
  ⟨(C10_pause_resume [] gPlay rfl).1, (C10_pause_resume [] gPlay rfl).2.2⟩

theorem math_core_answer_nonneg (difficulty a b : Int) (opChoice : Bool)
    (sq : Int) (ha : 0 ≤ a) (hb : 0 ≤ b) :
    0 ≤ (math_core difficulty a b opChoice sq).2 := by
  rw [math_core]
  split_ifs <;> simp <;>
    first
      | omega
      | exact mul_nonneg ha hb
      | exact mul_self_nonneg a
      | exact Int.natCast_nonneg _

theorem build_options_sound (answer : Int) :
    ∀ (offsets options res : List Int),
      build_options answer offsets options = some res →
      options.Nodup → (∀ x ∈ options, 0 ≤ x) → answer ∈ options →
      options.length ≤ 4 →
      res.Nodup ∧ (∀ x ∈ res, 0 ≤ x) ∧ answer ∈ res ∧ res.length = 4 := by
  intro offsets
  induction offsets with
  | nil =>
      intro options res h hnd hnn hmem hlen
      rw [build_options] at h
      by_cases h4 : 4 ≤ options.length
      · rw [if_pos h4] at h
        injection h with h
        subst h
        exact ⟨hnd, hnn, hmem, le_antisymm hlen h4⟩
      · rw [if_neg h4] at h
        exact absurd h (by simp)
  | cons o rest ih =>
      intro options res h hnd hnn hmem hlen
      rw [build_options] at h
      by_cases h4 : 4 ≤ options.length
      · rw [if_pos h4] at h
        injection h with h
        subst h
        exact ⟨hnd, hnn, hmem, le_antisymm hlen h4⟩
      · rw [if_neg h4] at h
        by_cases hc : (answer + o ≠ answer ∧ answer + o ∉ options ∧
            0 ≤ answer + o)
        · rw [if_pos hc] at h
          obtain ⟨hc1, hc2, hc3⟩ := hc
          refine ih (options ++ [answer + o]) res h ?_ ?_ ?_ ?_
          · refine List.nodup_append.2 ⟨hnd, List.nodup_singleton _, ?_⟩
            intro x hx hx2
            simp only [List.mem_singleton] at hx2
            subst hx2
            exact hc2 hx
          · intro x hx
            rcases List.mem_append.1 hx with hx | hx
            · exact hnn x hx
            · simp only [List.mem_singleton] at hx
              subst hx
              exact hc3
          · exact List.mem_append_left _ hmem
          · rw [List.length_append]
            simp only [List.length_singleton]
            omega
        · rw [if_neg hc] at h
          exact ih options res h hnd hnn hmem hlen

theorem build_options_succeeds (answer o1 o2 o3 : Int) (rest : List Int)
    (ha : 0 ≤ answer) (h1 : 0 < o1) (h2 : 0 < o2) (h3 : 0 < o3)
    (h12 : o1 ≠ o2) (h13 : o1 ≠ o3) (h23 : o2 ≠ o3) :
    ∃ res, build_options answer (o1 :: o2 :: o3 :: rest) [answer] =
      some res := by
  rw [build_options, if_neg (by simp),
    if_pos (⟨by omega, by simp; omega, by omega⟩ :
      answer + o1 ≠ answer ∧ answer + o1 ∉ [answer] ∧ 0 ≤ answer + o1)]
  rw [build_options, if_neg (by simp),
    if_pos (⟨by omega, by simp; omega, by omega⟩ :
      answer + o2 ≠ answer ∧ answer + o2 ∉ ([answer] ++ [answer + o1]) ∧
      0 ≤ answer + o2)]
  rw [build_options, if_neg (by simp),
    if_pos (⟨by omega, by simp; omega, by omega⟩ :
      answer + o3 ≠ answer ∧
      answer + o3 ∉ ([answer] ++ [answer + o1] ++ [answer + o2]) ∧
      0 ≤ answer + o3)]
  cases rest with
  | nil => exact ⟨_, by rw [build_options, if_pos (by simp)]⟩
  | cons o4 rest2 => exact ⟨_, by rw [build_options, if_pos (by simp)]⟩

/-- Claim C6: for any operand draws within the randint ranges (so both
non-negative), any drawn operation, any offset draw sequence and any
shuffle, a generated math question has exactly 4 pairwise-distinct
non-negative integer options, one of which equals the non-negative
correct answer; moreover generation succeeds whenever the offset draws
start with three distinct positive values, so a valid question is always
producible. -/
theorem C6_math_question (difficulty a b : Int) (opChoice : Bool) (sq : Int)
    (offsets : List Int) (shuffle : List Int → List Int) (q : Question)
    (ha : 0 ≤ a) (hb : 0 ≤ b)
    (hshuffle : ∀ l, (shuffle l).Perm l)
    (hgen : generate_math_question difficulty a b opChoice sq offsets
      shuffle = some q) :
    (q.options.length = 4 ∧ q.options.Nodup ∧ (∀ x ∈ q.options, 0 ≤ x) ∧
     q.answer ∈ q.options ∧ 0 ≤ q.answer) ∧
    (∀ (o1 o2 o3 : Int) (rest : List Int), 0 < o1 → 0 < o2 → 0 < o3 →
      o1 ≠ o2 → o1 ≠ o3 → o2 ≠ o3 →
      (generate_math_question difficulty a b opChoice sq
        (o1 :: o2 :: o3 :: rest) shuffle).isSome) := by
  have hans := math_core_answer_nonneg difficulty a b opChoice sq ha hb
  constructor
  · simp only [generate_math_question] at hgen
    split at hgen
    · exact absurd hgen (by simp)
    · next opts heq =>
        injection hgen with hgen
        subst hgen
        obtain ⟨hnd, hnn, hmem, hlen⟩ :=
          build_options_sound _ _ _ _ heq (List.nodup_singleton _)
            (by simpa using hans) (List.mem_singleton.2 rfl) (by simp)
        have hperm := hshuffle opts
        refine ⟨?_, ?_, ?_, ?_, hans⟩
        · rw [hperm.length_eq, hlen]
        · exact hperm.nodup_iff.2 hnd
        · intro x hx
          exact hnn x (hperm.subset hx)
        · exact hperm.mem_iff.2 hmem
  · intro o1 o2 o3 rest ho1 ho2 ho3 h12 h13 h23
    obtain ⟨res, hres⟩ :=
      build_options_succeeds _ o1 o2 o3 rest hans ho1 ho2 ho3 h12 h13 h23
    simp only [generate_math_question, hres]
    rfl

theorem C6_math_question_witness :
    generate_math_question 2 3 4 true 4 [1, 2, 3] id = some qGen ∧
    qGen.options.length = 4 ∧ qGen.answer ∈ qGen.options :=
  ⟨by decide,
    ((C6_math_question 2 3 4 true 4 [1, 2, 3] id qGen (by decide) (by decide)
      (fun l => List.Perm.refl l) (by decide)).1).1,
    ((C6_math_question 2 3 4 true 4 [1, 2, 3] id qGen (by decide) (by decide)
      (fun l => List.Perm.refl l) (by decide)).1).2.2.2.1⟩
